import Mathlib

/-!
Verification of the VulkanCubes renderer core against its specification.

Shallow embedding of:
* `utilities.h`   — the `aligned` size-rounding helper and instance constants,
* `camera.cpp`    — the yaw/pitch/walk/strafe camera model,
* `renderer.cpp`  — uniform-block sizing, the frame-pending protocol,
                    instance-buffer management and resource release.

Machine arithmetic (`VkDeviceSize` = `uint64_t`) is modelled as `Nat`
with explicit reduction modulo `2 ^ 64`.  Float quantities of the camera
are modelled over an arbitrary linear ordered field, with the degree
cosine/sine of `QMatrix4x4::rotate` kept as function parameters so that
the structural facts hold for any realisation of the trigonometry.
-/

namespace VulkanCubes

/-! ### utilities.h -/

/-- Width of `VkDeviceSize` arithmetic: `uint64_t` wraps modulo `2 ^ 64`. -/
def U64 : Nat := 2 ^ 64

/-- utilities.h line 15: `const int MAX_INSTANCES = 16384;` -/
def MAX_INSTANCES : Nat := 16384

/-- utilities.h line 16: `PER_INSTANCE_DATA_SIZE = 6 * sizeof(float)`. -/
def PER_INSTANCE_DATA_SIZE : Nat := 6 * 4

/-- utilities.h lines 18-21:
`aligned(v, byteAlign) = (v + byteAlign - 1) & ~(byteAlign - 1)` computed in
`uint64_t`.  The two's-complement subtraction `x - 1` is encoded as
`(x + (2^64 - 1)) % 2^64` and `~m` as `(2^64 - 1) ^^^ m`, which agrees with
the C++ semantics for all inputs below `2 ^ 64`. -/
def aligned (v byteAlign : Nat) : Nat :=
  ((v + byteAlign + (U64 - 1)) % U64) &&& ((U64 - 1) ^^^ ((byteAlign + (U64 - 1)) % U64))

/-- Clearing the low `k` bits of `x < 2 ^ 64` with the 64-bit complement mask
rounds `x` down to a multiple of `2 ^ k`. -/
lemma land_complement_mask (x k : Nat) (hk : k ≤ 64) (hx : x < 2 ^ 64) :
    x &&& ((2 ^ 64 - 1) ^^^ (2 ^ k - 1)) = 2 ^ k * (x / 2 ^ k) := by
  have hshift : 2 ^ k * (x / 2 ^ k) = (x >>> k) <<< k := by
    rw [Nat.shiftRight_eq_div_pow, Nat.shiftLeft_eq]
    ring
  rw [hshift]
  apply Nat.eq_of_testBit_eq
  intro i
  rw [Nat.testBit_land, Nat.testBit_xor, Nat.testBit_two_pow_sub_one,
    Nat.testBit_two_pow_sub_one, Nat.testBit_shiftLeft, Nat.testBit_shiftRight]
  rcases lt_or_ge i k with hik | hik
  · have hi64 : i < 64 := lt_of_lt_of_le hik hk
    simp [hik, hi64, Nat.not_le.2 hik]
  · rcases lt_or_ge i 64 with hi64 | hi64
    · have : k + (i - k) = i := by omega
      simp [hik, hi64, Nat.not_lt.2 hik, this]
    · have hxb : x.testBit i = false := by
        apply Nat.testBit_lt_two_pow
        exact lt_of_lt_of_le hx (Nat.pow_le_pow_right (by norm_num) hi64)
      have : k + (i - k) = i := by omega
      simp [hik, Nat.not_lt.2 (le_trans hk hi64), Nat.not_lt.2 hi64, this, hxb]

/-- For power-of-two alignments without 64-bit overflow, `aligned` computes
`(v + a - 1) - ((v + a - 1) % a)`. -/
lemma aligned_pow2 (v k : Nat) (hk : k < 64) (hv : v + 2 ^ k ≤ 2 ^ 64) :
    aligned v (2 ^ k) = (v + 2 ^ k - 1) - (v + 2 ^ k - 1) % 2 ^ k := by
  have hane : (1 : Nat) ≤ 2 ^ k := Nat.one_le_two_pow
  have hau : 2 ^ k - 1 < 2 ^ 64 := by
    have : (2 : Nat) ^ k ≤ 2 ^ 64 := Nat.pow_le_pow_right (by norm_num) (le_of_lt hk)
    omega
  have hxlt : v + 2 ^ k - 1 < 2 ^ 64 := by omega
  have h1 : (v + 2 ^ k + (U64 - 1)) % U64 = v + 2 ^ k - 1 := by
    have he : v + 2 ^ k + (U64 - 1) = (v + 2 ^ k - 1) + U64 := by
      have : (1 : Nat) ≤ U64 := by
        simp [U64]
      omega
    rw [he, Nat.add_mod_right]
    exact Nat.mod_eq_of_lt hxlt
  have h2 : (2 ^ k + (U64 - 1)) % U64 = 2 ^ k - 1 := by
    have he : 2 ^ k + (U64 - 1) = (2 ^ k - 1) + U64 := by
      have : (1 : Nat) ≤ U64 := by
        simp [U64]
      omega
    rw [he, Nat.add_mod_right]
    exact Nat.mod_eq_of_lt hau
  have hland := land_complement_mask (v + 2 ^ k - 1) k (le_of_lt hk) hxlt
  have hdm := Nat.div_add_mod (v + 2 ^ k - 1) (2 ^ k)
  calc aligned v (2 ^ k)
      = (v + 2 ^ k - 1) &&& ((2 ^ 64 - 1) ^^^ (2 ^ k - 1)) := by
        rw [aligned, h1, h2]
        rfl
    _ = 2 ^ k * ((v + 2 ^ k - 1) / 2 ^ k) := hland
    _ = (v + 2 ^ k - 1) - (v + 2 ^ k - 1) % 2 ^ k := by omega

/-- Claim C2 (amended): for every size `v` and power-of-two alignment
`2 ^ k` representable in `uint64_t` such that `v + 2 ^ k` does not exceed
`2 ^ 64` (so the internal `v + a - 1` cannot wrap), the rounding function
returns a multiple of the alignment that is at least `v` and less than
`v + 2 ^ k`. -/
theorem aligned_spec (v k : Nat) (hk : k < 64) (hv : v + 2 ^ k ≤ 2 ^ 64) :
    aligned v (2 ^ k) % 2 ^ k = 0 ∧
    v ≤ aligned v (2 ^ k) ∧
    aligned v (2 ^ k) < v + 2 ^ k := by
  have hane : (1 : Nat) ≤ 2 ^ k := Nat.one_le_two_pow
  have h := aligned_pow2 v k hk hv
  have hdm := Nat.div_add_mod (v + 2 ^ k - 1) (2 ^ k)
  have hmlt : (v + 2 ^ k - 1) % 2 ^ k < 2 ^ k :=
    Nat.mod_lt _ (Nat.pos_of_ne_zero (by positivity))
  refine ⟨?_, by omega, by omega⟩
  rw [h]
  have hrw : (v + 2 ^ k - 1) - (v + 2 ^ k - 1) % 2 ^ k
      = 2 ^ k * ((v + 2 ^ k - 1) / 2 ^ k) := by omega
  rw [hrw]
  exact Nat.mul_mod_right _ _

/-- Witness for `aligned_spec` at `v = 116`, `k = 8`. -/
theorem aligned_spec_witness :
    aligned 116 (2 ^ 8) % 2 ^ 8 = 0 ∧
    116 ≤ aligned 116 (2 ^ 8) ∧
    aligned 116 (2 ^ 8) < 116 + 2 ^ 8 :=
  aligned_spec 116 8 (by norm_num) (by norm_num)

/-- Claim C2 counterexample: at `s = 2 ^ 64 - 1` (the largest `VkDeviceSize`)
and power-of-two alignment `a = 2`, the internal sum `s + a - 1` wraps in
fixed-width arithmetic and the result `0` violates `aligned s a ≥ s`. -/
theorem aligned_overflow_cex :
    aligned (2 ^ 64 - 1) 2 = 0 ∧ ¬ (2 ^ 64 - 1 ≤ aligned (2 ^ 64 - 1) 2) := by
  have h : aligned (2 ^ 64 - 1) 2 = 0 := by
    have hmod : ((2 ^ 64 - 1) + 2 + (U64 - 1)) % U64 = 0 := by
      rw [U64]
      norm_num
    rw [aligned, hmod, Nat.zero_and]
  exact ⟨h, by rw [h]; norm_num⟩

/-! ### renderer.cpp — uniform block sizing (initResources, ensureBuffers, writeFragUni) -/

/-- renderer.cpp line 67: vertex-stage uniform byte count before alignment,
`2 * 64 + 48` (two mat4 plus one mat3 stored as three 16-byte vec3 slots). -/
def vertUniBytes : Nat := 2 * 64 + 48

/-- renderer.cpp line 68: fragment-stage uniform byte count before alignment,
`6 * 16 + 12 + 2 * 4` (six vec3 at 16-byte stride, one 12-byte vec3, two
4-byte floats). -/
def fragUniBytes : Nat := 6 * 16 + 12 + 2 * 4

/-- renderer.cpp line 67: `mItemMaterial.vertUniSize = aligned(2*64 + 48, uniformAlignment)`. -/
def vertUniSize (uniformAlignment : Nat) : Nat := aligned vertUniBytes uniformAlignment

/-- renderer.cpp line 68: `mItemMaterial.fragUniSize = aligned(6*16 + 12 + 2*4, uniformAlignment)`. -/
def fragUniSize (uniformAlignment : Nat) : Nat := aligned fragUniBytes uniformAlignment

/-- renderer.cpp line 574 (ensureBuffers): the shared uniform buffer is created
with `bufInfo.size = (vertUniSize + fragUniSize) * concurrentFrameCount`,
computed in `VkDeviceSize` arithmetic. -/
def uniBufSize (uniformAlignment concurrentFrameCount : Nat) : Nat :=
  ((vertUniSize uniformAlignment + fragUniSize uniformAlignment) * concurrentFrameCount) % U64

/-- renderer.cpp lines 740-778 (writeFragUni): each entry is one
`memcpy(p, src, len)` followed by `p += adv`, in source order:
camera position, ka, kd, ks, light position, attenuation (12 bytes copied,
pointer advanced 16), light color (12 copied, advanced 12), then intensity
and specular exponent (4 copied, advanced 4 each). -/
def writeFragUniSteps : List (Nat × Nat) :=
  [(12, 16), (12, 16), (12, 16), (12, 16), (12, 16), (12, 16), (12, 12), (4, 4), (4, 4)]

/-- Turn (length, advance) steps starting at offset `p` into (offset, length)
writes. -/
def stepWrites : Nat → List (Nat × Nat) → List (Nat × Nat)
  | _, [] => []
  | p, (len, adv) :: rest => (p, len) :: stepWrites (p + adv) rest

/-- The byte writes performed by `writeFragUni` relative to the start of the
fragment-stage slot. -/
def fragUniWrites : List (Nat × Nat) := stepWrites 0 writeFragUniSteps

/-- One past the last byte touched by a list of (offset, length) writes. -/
def writeExtent (ws : List (Nat × Nat)) : Nat :=
  ws.foldr (fun w m => max (w.1 + w.2) m) 0

/-- Claim C1 (amended): the fragment-stage uniform block measures 116 bytes
before alignment (six vec3 at 16-byte stride, a 12-byte light color with no
trailing pad, then two packed 4-byte scalars: 96 + 12 + 8 = 116), which is
exactly the extent of the bytes `writeFragUni` writes; the per-frame fragment
slot is that size rounded up to the minimum uniform-buffer offset alignment,
every `writeFragUni` byte falls inside the slot, and the shared uniform
buffer size is (aligned vertex size + aligned fragment size) multiplied by
the concurrent-frame count. -/
theorem frag_uniform_layout (k concurrentFrameCount : Nat) (hk : k < 64) :
    fragUniBytes = 116 ∧
    writeExtent fragUniWrites = fragUniBytes ∧
    fragUniSize (2 ^ k) = aligned 116 (2 ^ k) ∧
    fragUniBytes ≤ fragUniSize (2 ^ k) ∧
    (∀ w ∈ fragUniWrites, w.1 + w.2 ≤ fragUniSize (2 ^ k)) ∧
    uniBufSize (2 ^ k) concurrentFrameCount
      = ((aligned vertUniBytes (2 ^ k) + aligned fragUniBytes (2 ^ k))
          * concurrentFrameCount) % U64 := by
  have hov : 116 + 2 ^ k ≤ 2 ^ 64 := by
    have h63 : (2 : Nat) ^ k ≤ 2 ^ 63 := Nat.pow_le_pow_right (by norm_num) (by omega)
    have he : (2 : Nat) ^ 64 = 2 ^ 63 + 2 ^ 63 := by norm_num
    omega
  have hfit : fragUniBytes ≤ fragUniSize (2 ^ k) := by
    have := (aligned_spec 116 k hk hov).2.1
    simpa [fragUniSize, fragUniBytes] using this
  refine ⟨rfl, rfl, rfl, hfit, ?_, rfl⟩
  intro w hw
  have hb : w.1 + w.2 ≤ 116 := by
    simp only [fragUniWrites, writeFragUniSteps, stepWrites, List.mem_cons,
      List.not_mem_nil, or_false] at hw
    rcases hw with h | h | h | h | h | h | h | h | h <;> subst h <;> norm_num
  exact le_trans (by simpa [fragUniBytes] using hb) hfit

/-- Witness for `frag_uniform_layout` at alignment `2 ^ 8 = 256` and two
concurrent frames. -/
theorem frag_uniform_layout_witness :
    fragUniBytes = 116 ∧
    writeExtent fragUniWrites = fragUniBytes ∧
    fragUniSize (2 ^ 8) = aligned 116 (2 ^ 8) ∧
    fragUniBytes ≤ fragUniSize (2 ^ 8) ∧
    (∀ w ∈ fragUniWrites, w.1 + w.2 ≤ fragUniSize (2 ^ 8)) ∧
    uniBufSize (2 ^ 8) 2
      = ((aligned vertUniBytes (2 ^ 8) + aligned fragUniBytes (2 ^ 8)) * 2) % U64 :=
  frag_uniform_layout 8 2 (by norm_num)

/-- Claim C1 counterexample: the fragment-stage block computed by the source
expression `6 * 16 + 12 + 2 * 4` is 116 bytes, not 112 as claimed, and 116
is also the extent of the bytes written by `writeFragUni`. -/
theorem frag_uniform_112_cex :
    fragUniBytes = 116 ∧ writeExtent fragUniWrites = 116 ∧ fragUniBytes ≠ 112 := by
  refine ⟨rfl, rfl, ?_⟩
  decide

/-! ### camera.cpp

Float arithmetic is modelled over an arbitrary linear ordered field `K`.
`QMatrix4x4::rotate(angle, axis)` computes the cosine and sine of the angle
in degrees; those two functions are kept as parameters `dc`/`ds` so that
every structural statement holds for any realisation of the trigonometry,
and the counterexample instantiates them with the real cosine/sine.
Rotation matrices about the x and y axes and the `w = 0` direction vectors
live entirely in the upper-left 3x3 block of Qt's 4x4 matrices, so vectors
and matrices are modelled with three components. -/

@[ext]
structure Vec3 (K : Type) where
  x : K
  y : K
  z : K
  deriving DecidableEq

@[ext]
structure Mat3 (K : Type) where
  m00 : K
  m01 : K
  m02 : K
  m10 : K
  m11 : K
  m12 : K
  m20 : K
  m21 : K
  m22 : K
  deriving DecidableEq

variable {K : Type} [LinearOrderedField K]

/-- Qt `operator*(QVector4D, QMatrix4x4)`: row vector times matrix
(the form used by camera.cpp lines 32-33 and 44-45). -/
def vecMulMat (v : Vec3 K) (M : Mat3 K) : Vec3 K :=
  ⟨v.x * M.m00 + v.y * M.m10 + v.z * M.m20,
   v.x * M.m01 + v.y * M.m11 + v.z * M.m21,
   v.x * M.m02 + v.y * M.m12 + v.z * M.m22⟩

/-- Standard matrix product, as in `mPitchMatrix * mYawMatrix`. -/
def matMul (A B : Mat3 K) : Mat3 K :=
  ⟨A.m00 * B.m00 + A.m01 * B.m10 + A.m02 * B.m20,
   A.m00 * B.m01 + A.m01 * B.m11 + A.m02 * B.m21,
   A.m00 * B.m02 + A.m01 * B.m12 + A.m02 * B.m22,
   A.m10 * B.m00 + A.m11 * B.m10 + A.m12 * B.m20,
   A.m10 * B.m01 + A.m11 * B.m11 + A.m12 * B.m21,
   A.m10 * B.m02 + A.m11 * B.m12 + A.m12 * B.m22,
   A.m20 * B.m00 + A.m21 * B.m10 + A.m22 * B.m20,
   A.m20 * B.m01 + A.m21 * B.m11 + A.m22 * B.m21,
   A.m20 * B.m02 + A.m21 * B.m12 + A.m22 * B.m22⟩

/-- Identity 3x3 block, the state of a `QMatrix4x4` after `setToIdentity`. -/
def idMat : Mat3 K := ⟨1, 0, 0, 0, 1, 0, 0, 0, 1⟩

/-- 3x3 block of Qt `rotate(angle, 1, 0, 0)` with `c`/`s` the degree cosine
and sine of the angle. -/
def rotX (c s : K) : Mat3 K := ⟨1, 0, 0, 0, c, -s, 0, s, c⟩

/-- 3x3 block of Qt `rotate(angle, 0, 1, 0)` with `c`/`s` the degree cosine
and sine of the angle. -/
def rotY (c s : K) : Mat3 K := ⟨c, 0, s, 0, 1, 0, -s, 0, c⟩

/-- camera.cpp lines 16-22: `clamp360` performs a single conditional
correction step in each direction, not a modulo reduction. -/
def clamp360 (v : K) : K :=
  let v1 := if v > 360 then v - 360 else v
  if v1 < -360 then v1 + 360 else v1

/-- camera.h lines 22-30: the camera state. -/
structure Camera (K : Type) where
  mForward : Vec3 K
  mRight : Vec3 K
  mUp : Vec3 K
  mPos : Vec3 K
  mYaw : K
  mPitch : K
  mYawMatrix : Mat3 K
  mPitchMatrix : Mat3 K

/-- camera.cpp lines 6-14: the constructor; `QMatrix4x4` members default to
the identity. -/
def Camera.init (pos : Vec3 K) : Camera K :=
  ⟨⟨0, 0, -1⟩, ⟨1, 0, 0⟩, ⟨0, 1, 0⟩, pos, 0, 0, idMat, idMat⟩

/-- camera.cpp lines 24-34: `Camera::yaw` accumulates and clamps the yaw
angle, rebuilds the yaw matrix and recomputes forward and right (but not up)
from the combined rotation. -/
def Camera.yaw (dc ds : K → K) (degrees : K) (c : Camera K) : Camera K :=
  let mYaw := clamp360 (c.mYaw + degrees)
  let mYawMatrix := rotY (dc mYaw) (ds mYaw)
  let rotMat := matMul c.mPitchMatrix mYawMatrix
  { c with
    mYaw := mYaw
    mYawMatrix := mYawMatrix
    mForward := vecMulMat ⟨0, 0, -1⟩ rotMat
    mRight := vecMulMat ⟨1, 0, 0⟩ rotMat }

/-- camera.cpp lines 36-46: `Camera::pitch` accumulates and clamps the pitch
angle, rebuilds the pitch matrix and recomputes forward and up (but not
right) from the combined rotation. -/
def Camera.pitch (dc ds : K → K) (degrees : K) (c : Camera K) : Camera K :=
  let mPitch := clamp360 (c.mPitch + degrees)
  let mPitchMatrix := rotX (dc mPitch) (ds mPitch)
  let rotMat := matMul mPitchMatrix c.mYawMatrix
  { c with
    mPitch := mPitch
    mPitchMatrix := mPitchMatrix
    mForward := vecMulMat ⟨0, 0, -1⟩ rotMat
    mUp := vecMulMat ⟨0, 1, 0⟩ rotMat }

/-- camera.cpp lines 48-52: `Camera::walk` updates only `mPos[0]` and
`mPos[2]`. -/
def Camera.walk (amount : K) (c : Camera K) : Camera K :=
  { c with
    mPos := ⟨c.mPos.x + amount * c.mForward.x, c.mPos.y,
             c.mPos.z + amount * c.mForward.z⟩ }

/-- camera.cpp lines 54-58: `Camera::strafe` updates only `mPos[0]` and
`mPos[2]`. -/
def Camera.strafe (amount : K) (c : Camera K) : Camera K :=
  { c with
    mPos := ⟨c.mPos.x + amount * c.mRight.x, c.mPos.y,
             c.mPos.z + amount * c.mRight.z⟩ }

/-- The four camera mutators exposed by the renderer. -/
inductive CamOp (K : Type) where
  | yaw (degrees : K)
  | pitch (degrees : K)
  | walk (amount : K)
  | strafe (amount : K)

def applyCamOp (dc ds : K → K) (c : Camera K) : CamOp K → Camera K
  | .yaw d => Camera.yaw dc ds d c
  | .pitch d => Camera.pitch dc ds d c
  | .walk a => Camera.walk a c
  | .strafe a => Camera.strafe a c

def applyCamOps (dc ds : K → K) (c : Camera K) (ops : List (CamOp K)) : Camera K :=
  ops.foldl (applyCamOp dc ds) c

/-- The first row of an x-rotation is the canonical right vector, so right
is insensitive to the pitch factor of the combined rotation. -/
lemma vecMulMat_right_rotX (c s : K) (M : Mat3 K) :
    vecMulMat ⟨1, 0, 0⟩ (matMul (rotX c s) M) = vecMulMat ⟨1, 0, 0⟩ M := by
  ext <;> simp [vecMulMat, matMul, rotX]

/-- Invariant maintained by every camera mutator: forward and right are the
canonical vectors transformed by the combined rotation, and the pitch matrix
always has x-rotation shape. -/
def CamInv (c : Camera K) : Prop :=
  c.mForward = vecMulMat ⟨0, 0, -1⟩ (matMul c.mPitchMatrix c.mYawMatrix) ∧
  c.mRight = vecMulMat ⟨1, 0, 0⟩ (matMul c.mPitchMatrix c.mYawMatrix) ∧
  ∃ a b, c.mPitchMatrix = rotX a b

lemma camInv_init (pos : Vec3 K) : CamInv (Camera.init pos) := by
  refine ⟨?_, ?_, 1, 0, ?_⟩ <;>
    · ext <;> simp [Camera.init, vecMulMat, matMul, idMat, rotX]

lemma camInv_step (dc ds : K → K) (c : Camera K) (op : CamOp K) (h : CamInv c) :
    CamInv (applyCamOp dc ds c op) := by
  obtain ⟨hf, hr, a, b, hp⟩ := h
  cases op with
  | yaw d =>
    exact ⟨rfl, rfl, a, b, hp⟩
  | pitch d =>
    refine ⟨rfl, ?_, _, _, rfl⟩
    simp only [applyCamOp, Camera.pitch]
    rw [vecMulMat_right_rotX, hr, hp, vecMulMat_right_rotX]
  | walk amt =>
    exact ⟨hf, hr, a, b, hp⟩
  | strafe amt =>
    exact ⟨hf, hr, a, b, hp⟩

lemma camInv_ops (dc ds : K → K) (c : Camera K) (ops : List (CamOp K)) (h : CamInv c) :
    CamInv (applyCamOps dc ds c ops) := by
  induction ops generalizing c with
  | nil => exact h
  | cons op rest ih => exact ih _ (camInv_step dc ds c op h)

/-- Claim C4 (amended): after every sequence of camera operations, forward
equals the canonical forward `(0,0,-1)` transformed by the combined rotation
`pitchMatrix * yawMatrix` and right equals the canonical right `(1,0,0)` so
transformed; the up vector, however, is recomputed only by `pitch`, so a
`yaw` issued after a nonzero `pitch` leaves it stale. -/
theorem camera_forward_right_invariant (dc ds : K → K) (pos : Vec3 K)
    (ops : List (CamOp K)) :
    (applyCamOps dc ds (Camera.init pos) ops).mForward
      = vecMulMat ⟨0, 0, -1⟩
          (matMul (applyCamOps dc ds (Camera.init pos) ops).mPitchMatrix
            (applyCamOps dc ds (Camera.init pos) ops).mYawMatrix) ∧
    (applyCamOps dc ds (Camera.init pos) ops).mRight
      = vecMulMat ⟨1, 0, 0⟩
          (matMul (applyCamOps dc ds (Camera.init pos) ops).mPitchMatrix
            (applyCamOps dc ds (Camera.init pos) ops).mYawMatrix) := by
  obtain ⟨hf, hr, _⟩ := camInv_ops dc ds (Camera.init pos) ops (camInv_init pos)
  exact ⟨hf, hr⟩

lemma deg90_cos : Real.cos ((90 : ℝ) * Real.pi / 180) = 0 := by
  rw [show (90 : ℝ) * Real.pi / 180 = Real.pi / 2 by ring]
  exact Real.cos_pi_div_two

lemma deg90_sin : Real.sin ((90 : ℝ) * Real.pi / 180) = 1 := by
  rw [show (90 : ℝ) * Real.pi / 180 = Real.pi / 2 by ring]
  exact Real.sin_pi_div_two

/-- Claim C4 counterexample: with the real degree cosine/sine, the sequence
`pitch 90` then `yaw 90` leaves `mUp` at the value computed by the pitch call
(`(0, 0, -1)`), while the canonical up transformed by the current combined
rotation is `(1, 0, 0)`: `Camera::yaw` never recomputes `mUp`. -/
theorem camera_up_stale_cex :
    (applyCamOps (fun θ : ℝ => Real.cos (θ * Real.pi / 180))
        (fun θ : ℝ => Real.sin (θ * Real.pi / 180))
        (Camera.init ⟨0, 0, 20⟩) [CamOp.pitch 90, CamOp.yaw 90]).mUp
      ≠ vecMulMat ⟨0, 1, 0⟩
          (matMul
            (applyCamOps (fun θ : ℝ => Real.cos (θ * Real.pi / 180))
              (fun θ : ℝ => Real.sin (θ * Real.pi / 180))
              (Camera.init ⟨0, 0, 20⟩) [CamOp.pitch 90, CamOp.yaw 90]).mPitchMatrix
            (applyCamOps (fun θ : ℝ => Real.cos (θ * Real.pi / 180))
              (fun θ : ℝ => Real.sin (θ * Real.pi / 180))
              (Camera.init ⟨0, 0, 20⟩) [CamOp.pitch 90, CamOp.yaw 90]).mYawMatrix) := by
  have hclamp : clamp360 ((0 : ℝ) + 90) = 90 := by
    norm_num [clamp360]
  have hclamp2 : clamp360 ((90 : ℝ)) = 90 := by
    norm_num [clamp360]
  intro h
  have hx := congrArg Vec3.x h
  norm_num [applyCamOps, applyCamOp, Camera.pitch, Camera.yaw, Camera.init,
    hclamp, hclamp2, deg90_cos, deg90_sin, matMul, vecMulMat, rotX, rotY, idMat,
    List.foldl] at hx

/-- Claim C5: from the initial orientation, `yaw(370)` stores 10 and
`yaw(-370)` stores -10 (single correction step); `pitch` behaves
symmetrically; and a single increment of magnitude greater than 720 is
corrected only once, leaving the stored angle `d - 360` (for `d > 720`) or
`d + 360` (for `d < -720`), which still lies outside `(-360, 360]`. -/
theorem camera_wrap_single_step (dc ds : K → K) (pos : Vec3 K) :
    (Camera.yaw dc ds 370 (Camera.init pos)).mYaw = 10 ∧
    (Camera.yaw dc ds (-370) (Camera.init pos)).mYaw = -10 ∧
    (Camera.pitch dc ds 370 (Camera.init pos)).mPitch = 10 ∧
    (Camera.pitch dc ds (-370) (Camera.init pos)).mPitch = -10 ∧
    (∀ d : K, 720 < d →
      (Camera.yaw dc ds d (Camera.init pos)).mYaw = d - 360 ∧
      360 < (Camera.yaw dc ds d (Camera.init pos)).mYaw) ∧
    (∀ d : K, 720 < d →
      (Camera.pitch dc ds d (Camera.init pos)).mPitch = d - 360 ∧
      360 < (Camera.pitch dc ds d (Camera.init pos)).mPitch) ∧
    (∀ d : K, d < -720 →
      (Camera.yaw dc ds d (Camera.init pos)).mYaw = d + 360 ∧
      (Camera.yaw dc ds d (Camera.init pos)).mYaw < -360) ∧
    (∀ d : K, d < -720 →
      (Camera.pitch dc ds d (Camera.init pos)).mPitch = d + 360 ∧
      (Camera.pitch dc ds d (Camera.init pos)).mPitch < -360) := by
  refine ⟨?_, ?_, ?_, ?_, ?_, ?_, ?_, ?_⟩
  · norm_num [Camera.yaw, Camera.init, clamp360]
  · norm_num [Camera.yaw, Camera.init, clamp360]
  · norm_num [Camera.pitch, Camera.init, clamp360]
  · norm_num [Camera.pitch, Camera.init, clamp360]
  · intro d hd
    have h2 : d > 360 := by linarith
    have h3 : ¬ (d - 360 < -360) := by linarith
    constructor
    · simp [Camera.yaw, Camera.init, clamp360, h2, h3]
    · simp [Camera.yaw, Camera.init, clamp360, h2, h3]
      linarith
  · intro d hd
    have h2 : d > 360 := by linarith
    have h3 : ¬ (d - 360 < -360) := by linarith
    constructor
    · simp [Camera.pitch, Camera.init, clamp360, h2, h3]
    · simp [Camera.pitch, Camera.init, clamp360, h2, h3]
      linarith
  · intro d hd
    have h2 : ¬ (d > 360) := by linarith
    have h3 : d < -360 := by linarith
    constructor
    · simp [Camera.yaw, Camera.init, clamp360, h2, h3]
    · simp [Camera.yaw, Camera.init, clamp360, h2, h3]
      linarith
  · intro d hd
    have h2 : ¬ (d > 360) := by linarith
    have h3 : d < -360 := by linarith
    constructor
    · simp [Camera.pitch, Camera.init, clamp360, h2, h3]
    · simp [Camera.pitch, Camera.init, clamp360, h2, h3]
      linarith

/-- Witness for `camera_wrap_single_step` over the rationals (the angle
bookkeeping is independent of the trigonometric functions), with the
magnitude-over-720 parts instantiated at `d = 1000` and `d = -1000`. -/
theorem camera_wrap_single_step_witness :
    (Camera.yaw (fun _ : ℚ => 0) (fun _ => 0) 370 (Camera.init ⟨0, 0, 0⟩)).mYaw = 10 ∧
    (Camera.yaw (fun _ : ℚ => 0) (fun _ => 0) 1000 (Camera.init ⟨0, 0, 0⟩)).mYaw = 1000 - 360 ∧
    360 < (Camera.yaw (fun _ : ℚ => 0) (fun _ => 0) 1000 (Camera.init ⟨0, 0, 0⟩)).mYaw ∧
    (Camera.yaw (fun _ : ℚ => 0) (fun _ => 0) (-1000) (Camera.init ⟨0, 0, 0⟩)).mYaw = -1000 + 360 ∧
    (Camera.yaw (fun _ : ℚ => 0) (fun _ => 0) (-1000) (Camera.init ⟨0, 0, 0⟩)).mYaw < -360 ∧
    (Camera.pitch (fun _ : ℚ => 0) (fun _ => 0) (-1000) (Camera.init ⟨0, 0, 0⟩)).mPitch = -1000 + 360 := by
  have h := camera_wrap_single_step (fun _ : ℚ => 0) (fun _ => 0) ⟨0, 0, 0⟩
  exact ⟨h.1, (h.2.2.2.2.1 1000 (by norm_num)).1, (h.2.2.2.2.1 1000 (by norm_num)).2,
    (h.2.2.2.2.2.2.1 (-1000) (by norm_num)).1, (h.2.2.2.2.2.2.1 (-1000) (by norm_num)).2,
    (h.2.2.2.2.2.2.2 (-1000) (by norm_num)).1⟩

/-- Claim C6: for every camera state and every amount, `walk` and `strafe`
change only the x and z components of the position; the vertical coordinate
and all the rest of the camera state are untouched. -/
theorem walk_strafe_horizontal (c : Camera K) (amount : K) :
    (Camera.walk amount c).mPos.y = c.mPos.y ∧
    (Camera.walk amount c).mYaw = c.mYaw ∧
    (Camera.walk amount c).mPitch = c.mPitch ∧
    (Camera.walk amount c).mForward = c.mForward ∧
    (Camera.walk amount c).mRight = c.mRight ∧
    (Camera.walk amount c).mUp = c.mUp ∧
    (Camera.walk amount c).mYawMatrix = c.mYawMatrix ∧
    (Camera.walk amount c).mPitchMatrix = c.mPitchMatrix ∧
    (Camera.strafe amount c).mPos.y = c.mPos.y ∧
    (Camera.strafe amount c).mYaw = c.mYaw ∧
    (Camera.strafe amount c).mPitch = c.mPitch ∧
    (Camera.strafe amount c).mForward = c.mForward ∧
    (Camera.strafe amount c).mRight = c.mRight ∧
    (Camera.strafe amount c).mUp = c.mUp ∧
    (Camera.strafe amount c).mYawMatrix = c.mYawMatrix ∧
    (Camera.strafe amount c).mPitchMatrix = c.mPitchMatrix :=
  ⟨rfl, rfl, rfl, rfl, rfl, rfl, rfl, rfl,
   rfl, rfl, rfl, rfl, rfl, rfl, rfl, rfl⟩

/-! ### renderer.cpp — the frame-pending protocol

Events touching `mFramePending` and the frame-build task:
`startNextFrame` (lines 781-790: `Q_ASSERT(!mFramePending)`, set the flag,
dispatch the build task), the `QFutureWatcher` finished handler installed in
the constructor (lines 25-31: the task has completed; clear the flag if set
and notify the window), and `releaseSwapChainResources` (lines 419-430:
wait for the task, then clear the flag if set and notify the window).
A failed `Q_ASSERT` is modelled as `none`. -/

inductive FrameEv where
  | startNextFrame
  | watcherFinished
  | releaseSwapChainResources
  deriving DecidableEq

structure FrameState where
  framePending : Bool
  buildInFlight : Bool
  deriving DecidableEq

/-- One event of the frame protocol. -/
def frameStep (s : FrameState) : FrameEv → Option FrameState
  | .startNextFrame =>
      if s.framePending then none else some ⟨true, true⟩
  | .watcherFinished => some ⟨false, false⟩
  | .releaseSwapChainResources => some ⟨false, false⟩

def runFrameEvs (s : FrameState) : List FrameEv → Option FrameState
  | [] => some s
  | e :: evs => (frameStep s e).bind (fun t => runFrameEvs t evs)

/-- renderer.cpp line 54 (`mFramePending = false`) and the member
initialisers: no frame pending, no build in flight. -/
def initFrameState : FrameState := ⟨false, false⟩

lemma runFrameEvs_append (s : FrameState) (l1 l2 : List FrameEv) :
    runFrameEvs s (l1 ++ l2)
      = (runFrameEvs s l1).bind (fun t => runFrameEvs t l2) := by
  induction l1 generalizing s with
  | nil => simp [runFrameEvs]
  | cons e rest ih =>
    simp only [List.cons_append, runFrameEvs]
    cases frameStep s e with
    | none => simp
    | some t => simp [ih]

/-- Starting from a pending state, reaching a non-pending state requires a
consuming event. -/
lemma pending_cleared_by_consume (l : List FrameEv) (s t : FrameState)
    (hs : s.framePending = true) (hrun : runFrameEvs s l = some t)
    (ht : t.framePending = false) :
    FrameEv.watcherFinished ∈ l ∨ FrameEv.releaseSwapChainResources ∈ l := by
  induction l generalizing s with
  | nil =>
    simp only [runFrameEvs, Option.some.injEq] at hrun
    subst hrun
    rw [hs] at ht
    cases ht
  | cons e rest ih =>
    cases e with
    | startNextFrame =>
      simp [runFrameEvs, frameStep, hs] at hrun
    | watcherFinished => exact Or.inl (List.mem_cons_self _ _)
    | releaseSwapChainResources => exact Or.inr (List.mem_cons_self _ _)

/-- Claim C3: `startNextFrame` asserts that no frame is pending and sets the
flag before dispatching; a build dispatched leaves the flag set; the flag is
cleared by no event other than the watcher-finished notification or the
swapchain release; a second `startNextFrame` issued directly after one is
rejected; and any event sequence from the initial state that performs two
`startNextFrame` calls must contain a consuming event between them. -/
theorem frame_single_in_flight :
    (∀ s : FrameState, s.framePending = true →
      frameStep s FrameEv.startNextFrame = none) ∧
    (∀ s t : FrameState, frameStep s FrameEv.startNextFrame = some t →
      s.framePending = false ∧ t.framePending = true ∧ t.buildInFlight = true) ∧
    (∀ (s : FrameState) (e : FrameEv) (t : FrameState), frameStep s e = some t →
      s.framePending = true → t.framePending = false →
      e = FrameEv.watcherFinished ∨ e = FrameEv.releaseSwapChainResources) ∧
    (∀ s t : FrameState, frameStep s FrameEv.startNextFrame = some t →
      frameStep t FrameEv.startNextFrame = none) ∧
    (∀ (pre mid : List FrameEv) (t : FrameState),
      runFrameEvs initFrameState
        (pre ++ FrameEv.startNextFrame :: (mid ++ [FrameEv.startNextFrame]))
        = some t →
      FrameEv.watcherFinished ∈ mid ∨ FrameEv.releaseSwapChainResources ∈ mid) := by
  refine ⟨?_, ?_, ?_, ?_, ?_⟩
  · intro s hs
    simp [frameStep, hs]
  · intro s t h
    cases hsp : s.framePending with
    | true => simp [frameStep, hsp] at h
    | false =>
      simp [frameStep, hsp] at h
      subst h
      exact ⟨rfl, rfl, rfl⟩
  · intro s e t h hs ht
    cases e with
    | startNextFrame => simp [frameStep, hs] at h
    | watcherFinished => exact Or.inl rfl
    | releaseSwapChainResources => exact Or.inr rfl
  · intro s t h
    cases hsp : s.framePending with
    | true => simp [frameStep, hsp] at h
    | false =>
      simp [frameStep, hsp] at h
      subst h
      simp [frameStep]
  · intro pre mid t hrun
    rw [runFrameEvs_append] at hrun
    rcases Option.bind_eq_some.1 hrun with ⟨s1, _, h1⟩
    simp only [runFrameEvs] at h1
    rcases Option.bind_eq_some.1 h1 with ⟨s2, hstep, h2⟩
    have hs2 : s2 = ⟨true, true⟩ := by
      cases hp : s1.framePending with
      | true => simp [frameStep, hp] at hstep
      | false =>
        simp [frameStep, hp] at hstep
        exact hstep.symm
    subst hs2
    rw [runFrameEvs_append] at h2
    rcases Option.bind_eq_some.1 h2 with ⟨s3, hmid, h3⟩
    simp only [runFrameEvs] at h3
    rcases Option.bind_eq_some.1 h3 with ⟨s4, hstep2, _⟩
    have hs3 : s3.framePending = false := by
      by_cases hp : s3.framePending = true
      · simp [frameStep, hp] at hstep2
      · simpa using hp
    exact pending_cleared_by_consume mid ⟨true, true⟩ s3 rfl hmid hs3

/-- Witness for `frame_single_in_flight`: a pending state rejects
`startNextFrame`, and in the concrete trace start-finish-start the
consuming event is found between the two starts. -/
theorem frame_single_in_flight_witness :
    frameStep ⟨true, true⟩ FrameEv.startNextFrame = none ∧
    (FrameEv.watcherFinished ∈ [FrameEv.watcherFinished] ∨
      FrameEv.releaseSwapChainResources ∈ [FrameEv.watcherFinished]) :=
  ⟨frame_single_in_flight.1 ⟨true, true⟩ rfl,
   frame_single_in_flight.2.2.2.2 [] [FrameEv.watcherFinished] ⟨true, true⟩ (by rfl)⟩

/-! ### renderer.cpp — ensureInstanceBuffer and addNew

The per-instance random draws come from the global `QRandomGenerator`; the
generator is modelled as a function `bnd` from the draw index and the bound
passed to `bounded` to the value drawn, six draws per instance record in
source order.  Float payloads are modelled over `ℚ`. -/

/-- One 24-byte instance record: `instTranslate` and `instDiffuseAdjust`
(renderer.cpp lines 704-712). -/
structure InstRec where
  tx : ℚ
  ty : ℚ
  tz : ℚ
  dr : ℚ
  dg : ℚ
  db : ℚ
  deriving DecidableEq

/-- renderer.cpp lines 700-711: record `i` is produced from six successive
draws; `gen(a, b) = bounded(double(b - a)) + a`, and the three diffuse
components are divided by 10. -/
def genRec (bnd : Nat → ℚ → ℚ) (i : Nat) : InstRec :=
  ⟨bnd (6 * i) 10 + (-5),
   bnd (6 * i + 1) 10 + (-4),
   bnd (6 * i + 2) 35 + (-30),
   (bnd (6 * i + 3) 9 + (-6)) / 10,
   (bnd (6 * i + 4) 9 + (-6)) / 10,
   (bnd (6 * i + 5) 9 + (-6)) / 10⟩

/-- Instance-related renderer state: counts, the persistent backing store
(`mInstData`, one record per index, with its byte size tracked separately),
the device buffer handle and an allocation counter for its memory. -/
structure InstState where
  mInstCount : Nat
  mPreparedInstCount : Nat
  mInstData : Nat → InstRec
  mInstDataSize : Nat
  mInstBuf : Bool
  bufCapacity : Nat
  allocCount : Nat

/-- The `vkMapMemory` length and the `memcpy` length of the upload step
(renderer.cpp lines 716-722). -/
structure UploadInfo where
  mapLen : Nat
  copyLen : Nat
  deriving DecidableEq

/-- renderer.cpp lines 660-692, `if (!mInstBuf) { ... }`: allocate the device
buffer once at the maximum capacity and resize the backing store to match. -/
def ensureAlloc (s : InstState) : InstState :=
  if s.mInstBuf = true then s else
    { s with
      mInstBuf := true
      bufCapacity := MAX_INSTANCES * PER_INSTANCE_DATA_SIZE
      mInstDataSize := MAX_INSTANCES * PER_INSTANCE_DATA_SIZE
      allocCount := s.allocCount + 1 }

/-- renderer.cpp lines 694-714, `if (mInstCount != mPreparedInstCount)`:
synthesise exactly the records `[mPreparedInstCount, mInstCount)` and set
`mPreparedInstCount = mInstCount`. -/
def ensureGen (bnd : Nat → ℚ → ℚ) (s : InstState) : InstState :=
  if s.mInstCount ≠ s.mPreparedInstCount then
    { s with
      mInstData := fun i =>
        if s.mPreparedInstCount ≤ i ∧ i < s.mInstCount then genRec bnd i
        else s.mInstData i
      mPreparedInstCount := s.mInstCount }
  else s

/-- renderer.cpp lines 650-723, `Renderer::ensureInstanceBuffer`:
early return when the count is prepared and the buffer exists; the
`Q_ASSERT(mInstCount <= MAX_INSTANCES)` is modelled as `none`; then the
allocation and generation phases run, and finally the device memory is
mapped for `mInstCount * PER_INSTANCE_DATA_SIZE` bytes while `memcpy`
copies `mInstData.size()` bytes. -/
def ensureInstanceBuffer (bnd : Nat → ℚ → ℚ) (s : InstState) :
    Option (InstState × Option UploadInfo) :=
  if s.mInstCount = s.mPreparedInstCount ∧ s.mInstBuf = true then some (s, none)
  else if ¬ (s.mInstCount ≤ MAX_INSTANCES) then none
  else
    let s2 := ensureGen bnd (ensureAlloc s)
    some (s2, some ⟨s2.mInstCount * PER_INSTANCE_DATA_SIZE, s2.mInstDataSize⟩)

/-- renderer.cpp lines 914-918, `Renderer::addNew`:
`mInstCount = qMin(mInstCount + 16, MAX_INSTANCES)`. -/
def addNew (mInstCount : Nat) : Nat := min (mInstCount + 16) MAX_INSTANCES

/-- Claim C7 (amended): a requested count beyond the hard maximum is rejected
by the `Q_ASSERT` in `ensureInstanceBuffer` (it is not clamped), while
`addNew` clamps with `qMin`, so repeated `addNew` calls never push the
requested count above `MAX_INSTANCES`. -/
theorem instance_cap :
    (∀ (bnd : Nat → ℚ → ℚ) (s : InstState),
      MAX_INSTANCES < s.mInstCount → s.mPreparedInstCount ≤ MAX_INSTANCES →
      ensureInstanceBuffer bnd s = none) ∧
    (∀ n : Nat, addNew n ≤ MAX_INSTANCES) ∧
    (∀ n k : Nat, n ≤ MAX_INSTANCES → addNew^[k] n ≤ MAX_INSTANCES) := by
  refine ⟨?_, ?_, ?_⟩
  · intro bnd s hover hprep
    have hne : ¬ (s.mInstCount = s.mPreparedInstCount ∧ s.mInstBuf = true) := by
      intro h
      omega
    have hassert : ¬ (s.mInstCount ≤ MAX_INSTANCES) := by omega
    simp [ensureInstanceBuffer, hne, hassert]
  · intro n
    exact min_le_right _ _
  · intro n k hn
    induction k with
    | zero => simpa using hn
    | succ k ih =>
      rw [Function.iterate_succ_apply']
      exact min_le_right _ _

/-- Witness for `instance_cap`: a fresh state requesting 16400 instances is
rejected, and sixteen growth steps from 16300 stay at the maximum. -/
theorem instance_cap_witness :
    ensureInstanceBuffer (fun _ _ => 0)
      ⟨16400, 0, fun _ => ⟨0, 0, 0, 0, 0, 0⟩, 0, false, 0, 0⟩ = none ∧
    addNew 16380 ≤ MAX_INSTANCES ∧
    addNew^[16] 16300 ≤ MAX_INSTANCES :=
  ⟨instance_cap.1 (fun _ _ => 0) ⟨16400, 0, fun _ => ⟨0, 0, 0, 0, 0, 0⟩, 0, false, 0, 0⟩
      (by norm_num [MAX_INSTANCES]) (by norm_num),
   instance_cap.2.1 16380,
   instance_cap.2.2 16300 16 (by norm_num [MAX_INSTANCES])⟩

/-- Claim C7 counterexample: `ensureInstanceBuffer` with a requested count of
20000 (beyond the maximum of 16384) fails the assertion instead of clamping
the effective count to the maximum. -/
theorem ensure_no_clamp_cex :
    ensureInstanceBuffer (fun _ _ => 0)
      ⟨20000, 0, fun _ => ⟨0, 0, 0, 0, 0, 0⟩, 0, false, 0, 0⟩ = none := by
  norm_num [ensureInstanceBuffer, MAX_INSTANCES]

lemma ensureAlloc_count (s : InstState) : (ensureAlloc s).mInstCount = s.mInstCount := by
  unfold ensureAlloc
  split <;> rfl

lemma ensureAlloc_prepared (s : InstState) :
    (ensureAlloc s).mPreparedInstCount = s.mPreparedInstCount := by
  unfold ensureAlloc
  split <;> rfl

lemma ensureAlloc_data (s : InstState) : (ensureAlloc s).mInstData = s.mInstData := by
  unfold ensureAlloc
  split <;> rfl

lemma ensureAlloc_buf (s : InstState) : (ensureAlloc s).mInstBuf = true := by
  unfold ensureAlloc
  split
  · assumption
  · rfl

lemma ensureGen_count (bnd : Nat → ℚ → ℚ) (s : InstState) :
    (ensureGen bnd s).mInstCount = s.mInstCount := by
  unfold ensureGen
  split <;> rfl

lemma ensureGen_prepared (bnd : Nat → ℚ → ℚ) (s : InstState) :
    (ensureGen bnd s).mPreparedInstCount = s.mInstCount := by
  unfold ensureGen
  split
  · rfl
  · next h => simpa using (not_ne_iff.1 h).symm

lemma ensureGen_buf (bnd : Nat → ℚ → ℚ) (s : InstState) :
    (ensureGen bnd s).mInstBuf = s.mInstBuf := by
  unfold ensureGen
  split <;> rfl

lemma ensureGen_alloc (bnd : Nat → ℚ → ℚ) (s : InstState) :
    (ensureGen bnd s).allocCount = s.allocCount := by
  unfold ensureGen
  split <;> rfl

lemma ensureGen_capacity (bnd : Nat → ℚ → ℚ) (s : InstState) :
    (ensureGen bnd s).bufCapacity = s.bufCapacity := by
  unfold ensureGen
  split <;> rfl

lemma ensureGen_dataSize (bnd : Nat → ℚ → ℚ) (s : InstState) :
    (ensureGen bnd s).mInstDataSize = s.mInstDataSize := by
  unfold ensureGen
  split <;> rfl

lemma ensureGen_data_lt (bnd : Nat → ℚ → ℚ) (s : InstState) (i : Nat)
    (hi : i < s.mPreparedInstCount) :
    (ensureGen bnd s).mInstData i = s.mInstData i := by
  unfold ensureGen
  split
  · have : ¬ (s.mPreparedInstCount ≤ i ∧ i < s.mInstCount) := by omega
    simp [this]
  · rfl

/-- Claim C8: a successful `ensureInstanceBuffer` leaves a state in which a
repeated call is the identity (it early-returns the very same state with no
regeneration and no upload), records below the previously prepared count are
never rewritten, an existing device buffer is never reallocated, and the
first call allocates the buffer exactly once at the maximum capacity. -/
theorem ensure_instance_idempotent (bnd : Nat → ℚ → ℚ) (s t : InstState)
    (u : Option UploadInfo) (h : ensureInstanceBuffer bnd s = some (t, u)) :
    ensureInstanceBuffer bnd t = some (t, none) ∧
    (∀ i, i < s.mPreparedInstCount → t.mInstData i = s.mInstData i) ∧
    (s.mInstBuf = true → t.allocCount = s.allocCount ∧ t.bufCapacity = s.bufCapacity) ∧
    (s.mInstBuf = false → t.allocCount = s.allocCount + 1 ∧
      t.bufCapacity = MAX_INSTANCES * PER_INSTANCE_DATA_SIZE) ∧
    t.mInstBuf = true ∧ t.mPreparedInstCount = t.mInstCount := by
  by_cases h1 : s.mInstCount = s.mPreparedInstCount ∧ s.mInstBuf = true
  · rw [ensureInstanceBuffer, if_pos h1] at h
    simp only [Option.some.injEq, Prod.mk.injEq] at h
    obtain ⟨rfl, rfl⟩ := h
    refine ⟨?_, ?_, ?_, ?_, h1.2, h1.1.symm⟩
    · rw [ensureInstanceBuffer, if_pos h1]
    · intro i _
      rfl
    · intro _
      exact ⟨rfl, rfl⟩
    · intro hfalse
      rw [h1.2] at hfalse
      cases hfalse
  · rw [ensureInstanceBuffer, if_neg h1] at h
    by_cases h2 : s.mInstCount ≤ MAX_INSTANCES
    · rw [if_neg (not_not_intro h2)] at h
      simp only [Option.some.injEq, Prod.mk.injEq] at h
      obtain ⟨rfl, rfl⟩ := h
      have hbuf : (ensureGen bnd (ensureAlloc s)).mInstBuf = true := by
        rw [ensureGen_buf, ensureAlloc_buf]
      have hprep : (ensureGen bnd (ensureAlloc s)).mPreparedInstCount
          = (ensureGen bnd (ensureAlloc s)).mInstCount := by
        rw [ensureGen_prepared, ensureGen_count]
      refine ⟨?_, ?_, ?_, ?_, hbuf, hprep⟩
      · rw [ensureInstanceBuffer, if_pos ⟨hprep.symm, hbuf⟩]
      · intro i hi
        have hi2 : i < (ensureAlloc s).mPreparedInstCount := by
          rwa [ensureAlloc_prepared]
        rw [ensureGen_data_lt bnd _ i hi2, ensureAlloc_data]
      · intro hb
        rw [ensureGen_alloc, ensureGen_capacity]
        unfold ensureAlloc
        rw [if_pos hb]
        exact ⟨rfl, rfl⟩
      · intro hb
        rw [ensureGen_alloc, ensureGen_capacity]
        unfold ensureAlloc
        rw [if_neg (by simp [hb])]
        exact ⟨rfl, rfl⟩
    · rw [if_pos h2] at h
      exact Option.noConfusion h

/-- Witness for `ensure_instance_idempotent` on an already-prepared state
with 64 instances: the repeated call is the identity. -/
theorem ensure_instance_idempotent_witness :
    ensureInstanceBuffer (fun _ _ => 0)
        ⟨64, 64, fun _ => ⟨0, 0, 0, 0, 0, 0⟩, 393216, true, 393216, 1⟩
      = some (⟨64, 64, fun _ => ⟨0, 0, 0, 0, 0, 0⟩, 393216, true, 393216, 1⟩, none) :=
  (ensure_instance_idempotent (fun _ _ => 0)
      ⟨64, 64, fun _ => ⟨0, 0, 0, 0, 0, 0⟩, 393216, true, 393216, 1⟩
      ⟨64, 64, fun _ => ⟨0, 0, 0, 0, 0, 0⟩, 393216, true, 393216, 1⟩
      none rfl).1

/-- Claim C9 (code behaviour at the failing input): a fresh state requesting
64 instances maps `64 * PER_INSTANCE_DATA_SIZE = 1536` bytes of device
memory but copies the whole backing store,
`MAX_INSTANCES * PER_INSTANCE_DATA_SIZE = 393216` bytes — the `memcpy`
length exceeds the mapped range instead of uploading exactly the requested
records. -/
theorem upload_overrun_at_64 :
    (ensureInstanceBuffer (fun _ _ => 0)
        ⟨64, 0, fun _ => ⟨0, 0, 0, 0, 0, 0⟩, 0, false, 0, 0⟩).map (fun r => r.2)
      = some (some ⟨1536, 393216⟩) ∧
    (1536 : Nat) < 393216 := by
  constructor
  · rfl
  · norm_num

/-! ### renderer.cpp — releaseResources (lines 432-528)

Each destroyable device object is tracked as a Boolean (non-null handle /
valid shader).  Every destruction block in the source has the shape
`if (handle) { vkDestroyX(dev, handle, nullptr); handle = VK_NULL_HANDLE; }`
(shaders: `if (m.vs.isValid()) { vkDestroyShaderModule(...); m.vs.reset(); }`),
so after the call every tracked member is null/invalid — members whose guard
was false were already null — and the destroy log contains exactly the
objects whose guard was true, in source order. -/

inductive DObj where
  | itemDescriptorSetLayout
  | itemDescriptorPool
  | itemPipeline
  | itemPipelineLayout
  | floorPipeline
  | floorPipelineLayout
  | pipelineCache
  | blockVertexBuf
  | logoVertexBuf
  | floorVertexBuf
  | uniBuf
  | bufMem
  | instBuf
  | instBufMem
  | itemVertShader
  | itemFragShader
  | floorVertShader
  | floorFragShader
  deriving DecidableEq

/-- Nullable handle members destroyed by `releaseResources`, `true` when the
handle is non-null (for shaders: when `isValid()`). -/
structure RendererHandles where
  itemDescriptorSetLayout : Bool
  itemDescriptorPool : Bool
  itemPipeline : Bool
  itemPipelineLayout : Bool
  floorPipeline : Bool
  floorPipelineLayout : Bool
  pipelineCache : Bool
  blockVertexBuf : Bool
  logoVertexBuf : Bool
  floorVertexBuf : Bool
  uniBuf : Bool
  bufMem : Bool
  instBuf : Bool
  instBufMem : Bool
  itemVertShader : Bool
  itemFragShader : Bool
  floorVertShader : Bool
  floorFragShader : Bool
  deriving DecidableEq

def flagOf (s : RendererHandles) : DObj → Bool
  | .itemDescriptorSetLayout => s.itemDescriptorSetLayout
  | .itemDescriptorPool => s.itemDescriptorPool
  | .itemPipeline => s.itemPipeline
  | .itemPipelineLayout => s.itemPipelineLayout
  | .floorPipeline => s.floorPipeline
  | .floorPipelineLayout => s.floorPipelineLayout
  | .pipelineCache => s.pipelineCache
  | .blockVertexBuf => s.blockVertexBuf
  | .logoVertexBuf => s.logoVertexBuf
  | .floorVertexBuf => s.floorVertexBuf
  | .uniBuf => s.uniBuf
  | .bufMem => s.bufMem
  | .instBuf => s.instBuf
  | .instBufMem => s.instBufMem
  | .itemVertShader => s.itemVertShader
  | .itemFragShader => s.itemFragShader
  | .floorVertShader => s.floorVertShader
  | .floorFragShader => s.floorFragShader

/-- The guarded destruction blocks of renderer.cpp lines 441-527 in source
order. -/
def destroyOrder : List DObj :=
  [.itemDescriptorSetLayout, .itemDescriptorPool, .itemPipeline,
   .itemPipelineLayout, .floorPipeline, .floorPipelineLayout, .pipelineCache,
   .blockVertexBuf, .logoVertexBuf, .floorVertexBuf, .uniBuf, .bufMem,
   .instBuf, .instBufMem, .itemVertShader, .itemFragShader, .floorVertShader,
   .floorFragShader]

/-- All handles null / shaders reset: the state after every guarded block has
run (each block either destroys and nulls its member or finds it already
null). -/
def nullHandles : RendererHandles :=
  ⟨false, false, false, false, false, false, false, false, false,
   false, false, false, false, false, false, false, false, false⟩

/-- `Renderer::releaseResources`: resulting handle state and the list of
objects actually destroyed. -/
def releaseResources (s : RendererHandles) : RendererHandles × List DObj :=
  (nullHandles, destroyOrder.filter (fun o => flagOf s o))

/-- Claim C10: after `releaseResources` every destroyed-handle member is
null; a second call destroys nothing; within one call no object is destroyed
twice; and an object is destroyed only if its handle was non-null on entry. -/
theorem release_resources_idempotent (s : RendererHandles) :
    (∀ o, flagOf (releaseResources s).1 o = false) ∧
    (releaseResources (releaseResources s).1).2 = [] ∧
    (releaseResources s).2.Nodup ∧
    (∀ o, o ∈ (releaseResources s).2 → flagOf s o = true) := by
  refine ⟨?_, ?_, ?_, ?_⟩
  · intro o
    cases o <;> rfl
  · rfl
  · exact List.Nodup.filter _ (by decide)
  · intro o ho
    exact List.of_mem_filter ho

/-- Witness for `release_resources_idempotent` on the fully-initialised
handle state. -/
theorem release_resources_idempotent_witness :
    flagOf (releaseResources
        ⟨true, true, true, true, true, true, true, true, true,
         true, true, true, true, true, true, true, true, true⟩).1 DObj.uniBuf = false ∧
    (releaseResources (releaseResources
        ⟨true, true, true, true, true, true, true, true, true,
         true, true, true, true, true, true, true, true, true⟩).1).2 = [] ∧
    flagOf
        (⟨true, true, true, true, true, true, true, true, true,
          true, true, true, true, true, true, true, true, true⟩ : RendererHandles)
        DObj.uniBuf = true := by
  have h := release_resources_idempotent
    ⟨true, true, true, true, true, true, true, true, true,
     true, true, true, true, true, true, true, true, true⟩
  exact ⟨h.1 DObj.uniBuf, h.2.1, h.2.2.2 DObj.uniBuf (by decide)⟩

end VulkanCubes
